import Mathlib

/-!
Verification development for the vigilant-go telemetry agent.

The definitions below are a shallow embedding of the Go source:

* `map[string]string` values (tag sets, attribute sets) are modelled as
  association lists (`Tags`) whose keys are unique; Go map iteration order
  is unspecified, so wherever order could matter the theorems quantify
  over permutations of the list.
* `float64` metric values are modelled as `Int` (all concrete values in
  the verified properties are small integers, on which float64 arithmetic
  is exact).
* `time.Time` values are modelled as `Int` timestamps.
* A buffered Go channel is modelled as a `List` of queued items together
  with the capacity-checked send `chanSend`.
* Each background goroutine (`runLogBatcher`, `runMetricSender`,
  `runRegistration`) is modelled as a step function on an explicit state,
  driven by a schedule of events; the schedule captures which `select`
  case fires at each iteration, since Go's `select` chooses
  nondeterministically among the ready cases.
-/

namespace Vigilant

/-- A Go `map[string]string`, as an association list (keys unique). -/
abbrev Tags := List (String × String)

/-- Go map read `m[k]`: first matching key (keys are unique in a Go map). -/
def goMapGet (m : Tags) (k : String) : Option String :=
  match m with
  | [] => none
  | (k', v) :: rest => if k' = k then some v else goMapGet rest k

/-- Go map write `m[k] = v`: replace the binding if present, else add it. -/
def goMapSet (m : Tags) (k v : String) : Tags :=
  match m with
  | [] => [(k, v)]
  | (k', v') :: rest => if k' = k then (k, v) :: rest else (k', v') :: goMapSet rest k v

/-- Model of `maps.Copy(dst, src)`: write every binding of `src` into `dst`. -/
def mapsCopy (dst src : Tags) : Tags :=
  src.foldl (fun d kv => goMapSet d kv.1 kv.2) dst

/-- Model of `fmt.Sprintf("%s=%s", k, v)` for one tag, from `metricIdentifier.String`. -/
def tagPair (kv : String × String) : String := kv.1 ++ "=" ++ kv.2

/-- Model of `strings.Join(elems, sep)` from the Go standard library. -/
def stringsJoin (elems : List String) (sep : String) : String :=
  match elems with
  | [] => ""
  | e :: rest => rest.foldl (fun acc s => acc ++ sep ++ s) e

/-- Model of `metricIdentifier.String` (src/metric_collector.go): the metric name
followed by the `k=v` renderings of the tags sorted ascending
(`sort.Strings`), all joined with `_`. -/
def metricIdentifierString (name : String) (tags : Tags) : String :=
  let tagStrs := tags.map tagPair
  let sorted := List.insertionSort (fun a b => a ≤ b) tagStrs
  stringsJoin (name :: sorted) "_"

/-- Gauge write modes (`GaugeModeSet`/`GaugeModeInc`/`GaugeModeDec`). -/
inductive GaugeMode
  | set
  | inc
  | dec
deriving DecidableEq, Repr

/-- Model of `counterEvent`: one counter observation. -/
structure counterEvent where
  name : String
  tags : Tags
  value : Int
deriving DecidableEq, Repr

/-- Model of `gaugeEvent`: one gauge observation with its write mode. -/
structure gaugeEvent where
  name : String
  tags : Tags
  mode : GaugeMode
  value : Int
deriving DecidableEq, Repr

/-- Model of `histogramEvent`: one histogram observation. -/
structure histogramEvent where
  name : String
  tags : Tags
  value : Int
deriving DecidableEq, Repr

/-- Model of `counterSeries`: running sum for one metric identity. -/
structure counterSeries where
  name : String
  tags : Tags
  value : Int
deriving DecidableEq, Repr

/-- Model of `gaugeSeries`: current value for one metric identity. -/
structure gaugeSeries where
  name : String
  tags : Tags
  value : Int
deriving DecidableEq, Repr

/-- Model of `histogramSeries`: raw values recorded for one metric identity. -/
structure histogramSeries where
  name : String
  values : List Int
  tags : Tags
deriving DecidableEq, Repr

/-- Association-list read keyed by identifier string, modelling a Go map
`map[string]*T` lookup (keys unique). -/
def seriesGet {β : Type} (m : List (String × β)) (k : String) : Option β :=
  match m with
  | [] => none
  | (k', v) :: rest => if k' = k then some v else seriesGet rest k

/-- Association-list in-place update of the value stored under `k`,
modelling mutation through the `*T` pointer held in a Go map. -/
def seriesUpdate {β : Type} (m : List (String × β)) (k : String) (f : β → β) :
    List (String × β) :=
  match m with
  | [] => []
  | (k', v) :: rest => if k' = k then (k', f v) :: rest else (k', v) :: seriesUpdate rest k f

/-- Model of `processCounterEvent` (src/metric_collector.go): add to the existing
series' running sum, or create the series with the event's value. -/
def processCounterEvent (series : List (String × counterSeries)) (event : counterEvent) :
    List (String × counterSeries) :=
  let identifierString := metricIdentifierString event.name event.tags
  match seriesGet series identifierString with
  | some _ =>
      seriesUpdate series identifierString (fun s => { s with value := s.value + event.value })
  | none =>
      series ++ [(identifierString, { name := event.name, tags := event.tags, value := event.value })]

/-- The `switch event.mode` body shared by both branches of
`processGaugeEvent` (the Go `default` case coincides with `set`). -/
def applyGaugeMode (mode : GaugeMode) (current value : Int) : Int :=
  match mode with
  | .inc => current + value
  | .dec => current - value
  | .set => value

/-- Model of `processGaugeEvent` (src/metric_collector.go): apply the write mode to
the existing series value, or create the series with value `0` and then
apply the write mode to it. -/
def processGaugeEvent (series : List (String × gaugeSeries)) (event : gaugeEvent) :
    List (String × gaugeSeries) :=
  let identifierString := metricIdentifierString event.name event.tags
  match seriesGet series identifierString with
  | some _ =>
      seriesUpdate series identifierString
        (fun s => { s with value := applyGaugeMode event.mode s.value event.value })
  | none =>
      series ++
        [(identifierString,
          { name := event.name, tags := event.tags,
            value := applyGaugeMode event.mode 0 event.value })]

/-- Model of `processHistogramEvent` (src/metric_collector.go): append the value to
the existing series, or create the series holding just that value. -/
def processHistogramEvent (series : List (String × histogramSeries)) (event : histogramEvent) :
    List (String × histogramSeries) :=
  let identifierString := metricIdentifierString event.name event.tags
  match seriesGet series identifierString with
  | some _ =>
      seriesUpdate series identifierString (fun s => { s with values := s.values ++ [event.value] })
  | none =>
      series ++ [(identifierString, { name := event.name, values := [event.value], tags := event.tags })]

/-- Model of `counterMessage` (wire form of one counter series). -/
structure counterMessage where
  timestamp : Int
  metricName : String
  value : Int
  tags : Tags
deriving DecidableEq, Repr

/-- Model of `gaugeMessage` (wire form of one gauge series). -/
structure gaugeMessage where
  timestamp : Int
  metricName : String
  value : Int
  tags : Tags
deriving DecidableEq, Repr

/-- Model of `histogramMessage` (wire form of one histogram series). -/
structure histogramMessage where
  timestamp : Int
  metricName : String
  values : List Int
  tags : Tags
deriving DecidableEq, Repr

/-- Model of `aggregatedMetrics`: one flushed snapshot. -/
structure aggregatedMetrics where
  counterMetrics : List counterMessage
  gaugeMetrics : List gaugeMessage
  histogramMetrics : List histogramMessage
deriving DecidableEq, Repr

/-- Model of `newAggregatedMetrics`: the empty snapshot. -/
def newAggregatedMetrics : aggregatedMetrics := ⟨[], [], []⟩

/-- The series maps owned by `metricCollector` (the mutable state guarded
by `c.mux`). Go map iteration order is unspecified; the model iterates in
insertion order, and every theorem below is insensitive to that choice. -/
structure collectorState where
  counterSeries : List (String × counterSeries)
  gaugeSeries : List (String × gaugeSeries)
  histogramSeries : List (String × histogramSeries)
deriving DecidableEq, Repr

/-- The collector with no series yet (`newMetricCollector`). -/
def emptyCollectorState : collectorState := ⟨[], [], []⟩

/-- Model of `aggregateMetrics` (src/metric_collector.go): snapshot every series of
all three maps into messages stamped with the given interval timestamp.
The series maps themselves are left untouched. -/
def aggregateMetrics (c : collectorState) (timestamp : Int) : aggregatedMetrics :=
  { counterMetrics :=
      c.counterSeries.map fun kv =>
        { timestamp := timestamp, metricName := kv.2.name, value := kv.2.value, tags := kv.2.tags }
    gaugeMetrics :=
      c.gaugeSeries.map fun kv =>
        { timestamp := timestamp, metricName := kv.2.name, value := kv.2.value, tags := kv.2.tags }
    histogramMetrics :=
      c.histogramSeries.map fun kv =>
        { timestamp := timestamp, metricName := kv.2.name, values := kv.2.values, tags := kv.2.tags } }

/-- Model of `resetMetrics` (src/metric_collector.go): zero every counter series'
running sum and clear every histogram series' value list (gauge series
keep their value). In the source this function is invoked only from
`sendAfterShutdown`, never from the periodic flush path. -/
def resetMetrics (c : collectorState) : collectorState :=
  { c with
    counterSeries := c.counterSeries.map fun kv => (kv.1, { kv.2 with value := 0 })
    histogramSeries := c.histogramSeries.map fun kv => (kv.1, { kv.2 with values := [] }) }

/-- The collector state together with the snapshots already handed to the
metric sender (`c.sender.sendAggregatedMetrics`). -/
structure collectorRun where
  state : collectorState
  handedToSender : List aggregatedMetrics
deriving DecidableEq, Repr

/-- Model of `sendMetricsForInterval` (src/metric_collector.go): under the lock,
aggregate a snapshot for the interval; then hand it to the sender.
`aggregateMetrics` always returns a freshly allocated (non-nil) value, so
the `metricsToSend != nil` guard always passes. The series maps are not
modified: the periodic flush path contains no call to `resetMetrics`. -/
def sendMetricsForInterval (r : collectorRun) (intervalStart : Int) : collectorRun :=
  let metricsToSend := aggregateMetrics r.state intervalStart
  { r with handedToSender := r.handedToSender ++ [metricsToSend] }

/-- Model of `sendAfterShutdown` (src/metric_collector.go): aggregate everything
still held, reset the series maps, and hand the snapshot to the sender.
(In the source, `resetMetrics` re-acquires `c.mux`, which
`sendAfterShutdown` is already holding at that point.) -/
def sendAfterShutdown (r : collectorRun) (now : Int) : collectorRun :=
  let metricsToSend := aggregateMetrics r.state now
  { state := resetMetrics r.state
    handedToSender := r.handedToSender ++ [metricsToSend] }

/-- The identity fields of `registrationHandler` guarded by `h.mux`
(src/registration.go). `serviceInstanceId` plays no role in the verified
properties and is omitted. -/
structure registrationState where
  registered : Bool
  serviceName : String
  serviceInstanceNumber : Int
deriving DecidableEq, Repr

/-- Model of `newRegistrationHandler`: not yet registered. -/
def newRegistrationState (serviceName : String) : registrationState :=
  { registered := false, serviceName := serviceName, serviceInstanceNumber := 0 }

/-- Model of `getServiceInstance` (src/registration.go): a "not registered" error
before the first successful registration, otherwise
`fmt.Sprintf("%s-%d", serviceName, serviceInstanceNumber)`. -/
def getServiceInstance (h : registrationState) : Except String String :=
  if !h.registered then .error "not registered"
  else .ok (h.serviceName ++ "-" ++ toString h.serviceInstanceNumber)

/-- State of the `runRegistration` goroutine (src/registration.go):
either still looping (with the current `registered` flag) or returned. -/
inductive regLoopState
  | running (registered : Bool)
  | returned (registered : Bool)
deriving DecidableEq, Repr

/-- The `for i := 1; i < 10; i++` retry loop of one registration tick:
up to 9 `register()` attempts, stopping at the first success. The list
gives the outcome each attempt would have (`true` = success). -/
def registerAttemptsSucceed (outcomes : List Bool) : Bool :=
  (outcomes.take 9).any (fun b => b)

/-- One `ticker.C` iteration of `runRegistration` (src/registration.go):
when unregistered, run the bounded retry loop; if every attempt fails the
goroutine returns (`if err != nil { return }`). When registered, the tick
heartbeats instead. A returned goroutine performs no further attempts. -/
def runRegistrationStep (s : regLoopState) (tickOutcomes : List Bool) : regLoopState :=
  match s with
  | .returned r => .returned r
  | .running true => .running true
  | .running false =>
      if registerAttemptsSucceed tickOutcomes then .running true
      else .returned false

/-- The registration loop over a sequence of ticks, each with its oracle
of attempt outcomes. -/
def runRegistrationTicks (s : regLoopState) (ticks : List (List Bool)) : regLoopState :=
  ticks.foldl runRegistrationStep s

/-- Outcome of a Go channel send `ch <- x` as seen by the caller: either
the send completed (with the new queue contents) or the caller is blocked
because the buffer is full. -/
inductive sendOutcome (α : Type)
  | completed (queue : List α)
  | blocked
deriving DecidableEq, Repr

/-- Send on a buffered channel of capacity `cap`: append when there is
room, otherwise the sending goroutine blocks. -/
def chanSend {α : Type} (cap : Nat) (queue : List α) (x : α) : sendOutcome α :=
  if queue.length < cap then .completed (queue ++ [x]) else .blocked

/-- Model of `logMessage` (the fields relevant here; `Level` is kept as a string). -/
structure logMessage where
  timestamp : Int
  level : String
  body : String
  attributes : Tags
deriving DecidableEq, Repr

/-- Model of `errorMessage`. -/
structure errorMessage where
  timestamp : Int
  details : String
  attributes : Tags
deriving DecidableEq, Repr

/-- Model of `metricMessage`. -/
structure metricMessage where
  timestamp : Int
  name : String
  value : Int
  attributes : Tags
deriving DecidableEq, Repr

/-- Model of `alertMessage`. -/
structure alertMessage where
  timestamp : Int
  title : String
  attributes : Tags
deriving DecidableEq, Repr

/-- Model of `batcher.addLog` (src/batcher.go): return at once on a nil message,
otherwise a plain send `b.logQueue <- message` on the capacity-1000
channel — there is no `select`/`default`, so a full queue blocks. -/
def addLog (queue : List logMessage) (message : Option logMessage) : sendOutcome logMessage :=
  match message with
  | none => .completed queue
  | some m => chanSend 1000 queue m

/-- Model of `batcher.addError` (src/batcher.go), same shape as `addLog`. -/
def addError (queue : List errorMessage) (message : Option errorMessage) :
    sendOutcome errorMessage :=
  match message with
  | none => .completed queue
  | some m => chanSend 1000 queue m

/-- Model of `batcher.addMetric` (src/batcher.go), same shape as `addLog`. -/
def addMetric (queue : List metricMessage) (message : Option metricMessage) :
    sendOutcome metricMessage :=
  match message with
  | none => .completed queue
  | some m => chanSend 1000 queue m

/-- Model of `batcher.addAlert` (src/batcher.go), same shape as `addLog`. -/
def addAlert (queue : List alertMessage) (message : Option alertMessage) :
    sendOutcome alertMessage :=
  match message with
  | none => .completed queue
  | some m => chanSend 1000 queue m

/-- Model of `metricsHandler.capture` (src/metrics.go): build the attribute map,
then a `select` with a `default` case — on a full queue the message is
dropped silently and the queue is unchanged. -/
def capture (noop : Bool) (handlerName : String) (queue : List metricMessage)
    (now : Int) (name : String) (value : Int) (attrs : Tags) : List metricMessage :=
  if noop || name = "" then queue
  else
    let attrsMap := goMapSet (mapsCopy [] attrs) "service.name" handlerName
    match chanSend 1000 queue { timestamp := now, name := name, value := value, attributes := attrsMap } with
    | .completed q => q
    | .blocked => queue

/-- State of the `runLogBatcher` goroutine (src/batcher.go): the channel
contents, the local `logs` slice, the batches handed to `sendLogBatch`
(the HTTP delivery step — a batch stays "sent" even if the POST fails,
since failed sends are logged and dropped), and whether the goroutine has
returned. -/
structure logBatcherState where
  queue : List logMessage
  buf : List logMessage
  sent : List (List logMessage)
  loopExited : Bool
deriving DecidableEq, Repr

/-- Which case of the `select` in `runLogBatcher` fires. `stopSignal` is
ready once `stop()` has closed `batchStop`; `recv` is ready while the
channel is non-empty; `tick` is the 100 ms ticker. Go picks any ready
case, so runs are quantified over schedules. -/
inductive batcherEvent
  | stopSignal
  | recv
  | tick
deriving DecidableEq, Repr

/-- Model of `maxBatchSize` in `runLogBatcher`. -/
def maxBatchSize : Nat := 100

/-- One `select` iteration of `runLogBatcher` (src/batcher.go). On the
stop signal the loop flushes the local slice (only) and returns; a
received message is appended to the slice, flushing at `maxBatchSize`;
a tick flushes a non-empty slice. -/
def logBatcherStep (s : logBatcherState) (e : batcherEvent) : logBatcherState :=
  if s.loopExited then s
  else
    match e with
    | .stopSignal =>
        if s.buf.length > 0 then
          { s with sent := s.sent ++ [s.buf], buf := [], loopExited := true }
        else { s with loopExited := true }
    | .recv =>
        match s.queue with
        | [] => s
        | m :: rest =>
            let logs := s.buf ++ [m]
            if logs.length ≥ maxBatchSize then
              { s with queue := rest, buf := [], sent := s.sent ++ [logs] }
            else { s with queue := rest, buf := logs }
    | .tick =>
        if s.buf.length > 0 then { s with sent := s.sent ++ [s.buf], buf := [] }
        else s

/-- The `runLogBatcher` loop over a schedule of select outcomes. -/
def runLogBatcher (s : logBatcherState) (es : List batcherEvent) : logBatcherState :=
  es.foldl logBatcherStep s

/-- State of the `runMetricSender` goroutine (src/metric_sender.go). -/
structure senderState where
  queue : List aggregatedMetrics
  delivered : List aggregatedMetrics
  loopExited : Bool
deriving DecidableEq, Repr

/-- Which case of the `select` in `runMetricSender` fires. -/
inductive senderEvent
  | stopSignal
  | recv
deriving DecidableEq, Repr

/-- The `len(aggs.counterMetrics) > 0 || len(aggs.gaugeMetrics) > 0`
guard in `runMetricSender`. -/
def hasMetricsToSend (a : aggregatedMetrics) : Bool :=
  a.counterMetrics.length > 0 || a.gaugeMetrics.length > 0

/-- One `select` iteration of `runMetricSender` (src/metric_sender.go):
the stop signal makes the goroutine return immediately — there is no
drain of `aggsQueue`; a received snapshot is delivered (via
`sendMetrics`) when it has counters or gauges. -/
def metricSenderStep (s : senderState) (e : senderEvent) : senderState :=
  if s.loopExited then s
  else
    match e with
    | .stopSignal => { s with loopExited := true }
    | .recv =>
        match s.queue with
        | [] => s
        | a :: rest =>
            if hasMetricsToSend a then
              { s with queue := rest, delivered := s.delivered ++ [a] }
            else { s with queue := rest }

/-- The `runMetricSender` loop over a schedule of select outcomes.
`metricSender.stop()` closes `batchStop` and waits for this loop to
return, so a schedule ending with the loop exited describes the state at
the moment `stop()` returns. -/
def runMetricSender (s : senderState) (es : List senderEvent) : senderState :=
  es.foldl metricSenderStep s

/-- Model of `agent.withBaseAttributes` (src/agent.go): allocate a fresh map, copy
the caller's map into it when non-nil (`maps.Copy` only reads `attrs`),
then bind `"service.name"` to the agent's configured name. The caller's
map is only ever read, which the embedding reflects by leaving the
`attrs` value untouched and returning a separately constructed map. -/
def withBaseAttributes (name : String) (attrs : Option Tags) : Tags :=
  let updatedAttrs : Tags := []
  let updatedAttrs :=
    match attrs with
    | some a => mapsCopy updatedAttrs a
    | none => updatedAttrs
  goMapSet updatedAttrs "service.name" name

/-! ### Helper lemmas -/

/-- Permuting the tag list does not change the serialized identifier:
the `k=v` strings are sorted before joining. -/
theorem identifierString_perm (name : String) {t1 t2 : Tags} (h : t1.Perm t2) :
    metricIdentifierString name t1 = metricIdentifierString name t2 := by
  have hp : (t1.map tagPair).Perm (t2.map tagPair) := h.map tagPair
  have hs :
      List.insertionSort (fun a b => a ≤ b) (t1.map tagPair) =
        List.insertionSort (fun a b => a ≤ b) (t2.map tagPair) :=
    List.eq_of_perm_of_sorted
      (((List.perm_insertionSort _ _).trans hp).trans (List.perm_insertionSort _ _).symm)
      (List.sorted_insertionSort _ _) (List.sorted_insertionSort _ _)
  simp only [metricIdentifierString, hs]

/-- Reading back the key just written. -/
theorem goMapGet_goMapSet_self (m : Tags) (k v : String) :
    goMapGet (goMapSet m k v) k = some v := by
  induction m with
  | nil => simp [goMapSet, goMapGet]
  | cons kv rest ih =>
      obtain ⟨k', v'⟩ := kv
      by_cases hk : k' = k
      · simp [goMapSet, hk, goMapGet]
      · simp [goMapSet, hk, goMapGet, ih]

/-- Writing one key leaves every other key's binding unchanged. -/
theorem goMapGet_goMapSet_ne (m : Tags) (k v k' : String) (h : k' ≠ k) :
    goMapGet (goMapSet m k v) k' = goMapGet m k' := by
  induction m with
  | nil => simp [goMapSet, goMapGet, Ne.symm h]
  | cons kv rest ih =>
      obtain ⟨k0, v0⟩ := kv
      by_cases hk : k0 = k
      · subst hk
        simp [goMapSet, goMapGet, Ne.symm h]
      · by_cases hq : k0 = k'
        · simp [goMapSet, hk, goMapGet, hq, h]
        · simp [goMapSet, hk, goMapGet, hq, ih]

/-- A key that is absent reads as `none`. -/
theorem goMapGet_eq_none (m : Tags) (k : String) (h : k ∉ m.map Prod.fst) :
    goMapGet m k = none := by
  induction m with
  | nil => rfl
  | cons kv rest ih =>
      obtain ⟨k0, v0⟩ := kv
      simp only [List.map_cons, List.mem_cons] at h
      push_neg at h
      simp [goMapGet, Ne.symm h.1, ih h.2]

/-- Model of `maps.Copy` semantics through `goMapGet`: a key bound in `src` (whose
keys are unique) reads its `src` value, any other key keeps its `dst`
binding. -/
theorem goMapGet_mapsCopy (src : Tags) (dst : Tags) (k : String)
    (hnd : (src.map Prod.fst).Nodup) :
    goMapGet (mapsCopy dst src) k = (goMapGet src k).elim (goMapGet dst k) some := by
  induction src generalizing dst with
  | nil => simp [mapsCopy, goMapGet]
  | cons kv rest ih =>
      obtain ⟨k0, v0⟩ := kv
      simp only [List.map_cons, List.nodup_cons] at hnd
      have hstep : mapsCopy dst ((k0, v0) :: rest) = mapsCopy (goMapSet dst k0 v0) rest := rfl
      rw [hstep, ih (goMapSet dst k0 v0) hnd.2]
      by_cases h : k0 = k
      · subst h
        have hrest : goMapGet rest k0 = none := goMapGet_eq_none rest k0 hnd.1
        simp [goMapGet, hrest, goMapGet_goMapSet_self]
      · simp [goMapGet, h, goMapGet_goMapSet_ne dst k0 v0 k (fun e => h e.symm)]

/-! ### Claims -/

/-- C5 (counterexample): the serialized identity is not injective — the
metric named `a` with tag set `{b: c}` and the metric named `a_b=c` with
no tags get the same aggregation-series key even though their names (and
tag contents) differ. -/
theorem c5_identifier_not_injective :
    metricIdentifierString "a" [("b", "c")] = metricIdentifierString "a_b=c" [] ∧
    "a" ≠ "a_b=c" := by
  constructor
  · decide
  · decide

/-- C5 (amended): metric events with the same name and tag sets equal as
key-to-value maps — regardless of the order the tags are supplied — are
assigned the same aggregation-series key (the serialization is
deterministic); the serialization is however not injective, so distinct
names or tag contents may collide. -/
theorem c5_amended_identifier_deterministic (name : String) (t1 t2 : Tags)
    (h : t1.Perm t2) :
    metricIdentifierString name t1 = metricIdentifierString name t2 :=
  identifierString_perm name h

/-- Witness for C5 (amended) at a concrete reordered tag set. -/
theorem c5_amended_identifier_deterministic_witness :
    metricIdentifierString "m" [("env", "prod"), ("region", "us")] =
      metricIdentifierString "m" [("region", "us"), ("env", "prod")] :=
  c5_amended_identifier_deterministic "m" [("env", "prod"), ("region", "us")]
    [("region", "us"), ("env", "prod")] (by decide)

/-- C10: `withBaseAttributes` returns a fresh map (the source writes only
the map it just allocated; the caller's map is only read, so it is never
mutated — including the nil case) that contains every caller-supplied
binding except that `"service.name"` is bound to the agent's configured
service name, overriding any caller-supplied value for it. Caller maps
are Go maps, so their keys are unique. -/
theorem c10_withBaseAttributes_fresh_map (name : String) (attrs : Option Tags)
    (hnd : ((attrs.getD []).map Prod.fst).Nodup) :
    goMapGet (withBaseAttributes name attrs) "service.name" = some name ∧
    ∀ k, k ≠ "service.name" →
      goMapGet (withBaseAttributes name attrs) k = goMapGet (attrs.getD []) k := by
  cases attrs with
  | none =>
      constructor
      · simp [withBaseAttributes, goMapSet, goMapGet]
      · intro k hk
        simp [withBaseAttributes, goMapSet, goMapGet, Ne.symm hk]
  | some a =>
      simp only [Option.getD_some] at hnd ⊢
      constructor
      · exact goMapGet_goMapSet_self _ _ _
      · intro k hk
        rw [withBaseAttributes, goMapGet_goMapSet_ne _ _ _ _ hk,
          goMapGet_mapsCopy a [] k hnd]
        cases hsrc : goMapGet a k <;> simp [goMapGet]

/-- Witness for C10 at a concrete attribute map that tries to override
`service.name`. -/
theorem c10_withBaseAttributes_fresh_map_witness :
    goMapGet (withBaseAttributes "svc" (some [("user", "u1"), ("service.name", "fake")]))
        "service.name" = some "svc" ∧
    goMapGet (withBaseAttributes "svc" (some [("user", "u1"), ("service.name", "fake")]))
        "user" = goMapGet [("user", "u1"), ("service.name", "fake")] "user" :=
  ⟨(c10_withBaseAttributes_fresh_map "svc" (some [("user", "u1"), ("service.name", "fake")])
      (by decide)).1,
   (c10_withBaseAttributes_fresh_map "svc" (some [("user", "u1"), ("service.name", "fake")])
      (by decide)).2 "user" (by decide)⟩

/-- C6: processing exactly the counter events (A,1), (A,2), (A,3) for one
metric identity A — same name, tag sets equal as maps (any order) — in
one window leaves exactly one counter series for A whose running sum is
6, and the flushed snapshot for that window contains exactly that one
counter series with value 6. -/
theorem c6_counter_window_sum (name : String) (t1 t2 t3 : Tags) (ts : Int)
    (h2 : t2.Perm t1) (h3 : t3.Perm t1) :
    processCounterEvent
        (processCounterEvent (processCounterEvent [] ⟨name, t1, 1⟩) ⟨name, t2, 2⟩)
        ⟨name, t3, 3⟩ =
      [(metricIdentifierString name t1, ⟨name, t1, 6⟩)] ∧
    (aggregateMetrics
        ⟨processCounterEvent
            (processCounterEvent (processCounterEvent [] ⟨name, t1, 1⟩) ⟨name, t2, 2⟩)
            ⟨name, t3, 3⟩, [], []⟩ ts).counterMetrics =
      [⟨ts, name, 6, t1⟩] := by
  have e2 : metricIdentifierString name t2 = metricIdentifierString name t1 :=
    identifierString_perm name h2
  have e3 : metricIdentifierString name t3 = metricIdentifierString name t1 :=
    identifierString_perm name h3
  have hseries :
      processCounterEvent
          (processCounterEvent (processCounterEvent [] ⟨name, t1, 1⟩) ⟨name, t2, 2⟩)
          ⟨name, t3, 3⟩ =
        [(metricIdentifierString name t1, ⟨name, t1, 6⟩)] := by
    simp only [processCounterEvent, e2, e3, seriesGet, seriesUpdate, List.nil_append]
    norm_num
  refine ⟨hseries, ?_⟩
  rw [hseries]
  simp [aggregateMetrics]

/-- Witness for C6 at a concrete identity with reordered tag sets. -/
theorem c6_counter_window_sum_witness :
    processCounterEvent
        (processCounterEvent
          (processCounterEvent [] ⟨"req", [("env", "prod"), ("az", "b")], 1⟩)
          ⟨"req", [("az", "b"), ("env", "prod")], 2⟩)
        ⟨"req", [("env", "prod"), ("az", "b")], 3⟩ =
      [(metricIdentifierString "req" [("env", "prod"), ("az", "b")],
        ⟨"req", [("env", "prod"), ("az", "b")], 6⟩)] :=
  (c6_counter_window_sum "req" [("env", "prod"), ("az", "b")]
    [("az", "b"), ("env", "prod")] [("env", "prod"), ("az", "b")] 0
    (by decide) (by decide)).1

/-- C7: processing the gauge events (B,set,5), (B,inc,2), (B,dec,1) in
that order in one window — the first event creating the series — leaves
the gauge series for B with final value 6: `set` replaces the value,
`inc` adds, `dec` subtracts. -/
theorem c7_gauge_mode_sequence (name : String) (t1 t2 t3 : Tags) (ts : Int)
    (h2 : t2.Perm t1) (h3 : t3.Perm t1) :
    processGaugeEvent
        (processGaugeEvent (processGaugeEvent [] ⟨name, t1, .set, 5⟩) ⟨name, t2, .inc, 2⟩)
        ⟨name, t3, .dec, 1⟩ =
      [(metricIdentifierString name t1, ⟨name, t1, 6⟩)] ∧
    (aggregateMetrics
        ⟨[], processGaugeEvent
            (processGaugeEvent (processGaugeEvent [] ⟨name, t1, .set, 5⟩) ⟨name, t2, .inc, 2⟩)
            ⟨name, t3, .dec, 1⟩, []⟩ ts).gaugeMetrics =
      [⟨ts, name, 6, t1⟩] := by
  have e2 : metricIdentifierString name t2 = metricIdentifierString name t1 :=
    identifierString_perm name h2
  have e3 : metricIdentifierString name t3 = metricIdentifierString name t1 :=
    identifierString_perm name h3
  have hseries :
      processGaugeEvent
          (processGaugeEvent (processGaugeEvent [] ⟨name, t1, .set, 5⟩) ⟨name, t2, .inc, 2⟩)
          ⟨name, t3, .dec, 1⟩ =
        [(metricIdentifierString name t1, ⟨name, t1, 6⟩)] := by
    simp only [processGaugeEvent, e2, e3, seriesGet, seriesUpdate, applyGaugeMode,
      List.nil_append]
    norm_num
  refine ⟨hseries, ?_⟩
  rw [hseries]
  simp [aggregateMetrics]

/-- Witness for C7 at a concrete identity with reordered tag sets. -/
theorem c7_gauge_mode_sequence_witness :
    processGaugeEvent
        (processGaugeEvent
          (processGaugeEvent [] ⟨"conn", [("env", "prod")], .set, 5⟩)
          ⟨"conn", [("env", "prod")], .inc, 2⟩)
        ⟨"conn", [("env", "prod")], .dec, 1⟩ =
      [(metricIdentifierString "conn" [("env", "prod")], ⟨"conn", [("env", "prod")], 6⟩)] :=
  (c7_gauge_mode_sequence "conn" [("env", "prod")] [("env", "prod")] [("env", "prod")] 0
    (by decide) (by decide)).1

/-- C1: evaluation of the code at the failing input. After one counter
event (`a`, value 1) and one histogram event (`h`, value 2), a periodic
flush at interval 1 followed by a periodic flush at interval 2 produces a
second snapshot that again contains counter value 1 and histogram raw
value 2 — `sendMetricsForInterval` contains no call to `resetMetrics`, so
the flush leaves the accumulators exactly as they were and values
recorded before the first flush are counted again in the later window. -/
theorem c1_periodic_flush_does_not_reset :
    (sendMetricsForInterval
        (sendMetricsForInterval
          { state :=
              { counterSeries := processCounterEvent [] ⟨"a", [], 1⟩
                gaugeSeries := []
                histogramSeries := processHistogramEvent [] ⟨"h", [], 2⟩ }
            handedToSender := [] } 1) 2).handedToSender =
      [⟨[⟨1, "a", 1, []⟩], [], [⟨1, "h", [2], []⟩]⟩,
       ⟨[⟨2, "a", 1, []⟩], [], [⟨2, "h", [2], []⟩]⟩] ∧
    (sendMetricsForInterval
        { state :=
            { counterSeries := processCounterEvent [] ⟨"a", [], 1⟩
              gaugeSeries := []
              histogramSeries := processHistogramEvent [] ⟨"h", [], 2⟩ }
          handedToSender := [] } 1).state =
      { counterSeries := processCounterEvent [] ⟨"a", [], 1⟩
        gaugeSeries := []
        histogramSeries := processHistogramEvent [] ⟨"h", [], 2⟩ } := by
  constructor
  · decide
  · decide

/-- C2 (counterexample): a flush performed while the registration handler
has not yet completed any registration (`getServiceInstance` reports "not
registered") is not skipped — the snapshot, here holding counter `a` with
value 1, is handed to the metric sender anyway. -/
theorem c2_flush_before_registration_still_sends :
    getServiceInstance (newRegistrationState "svc") = .error "not registered" ∧
    (sendMetricsForInterval
        { state :=
            { counterSeries := processCounterEvent [] ⟨"a", [], 1⟩
              gaugeSeries := []
              histogramSeries := [] }
          handedToSender := [] } 1).handedToSender =
      [⟨[⟨1, "a", 1, []⟩], [], []⟩] := by
  constructor
  · rfl
  · decide

/-- C2 (amended): flushes are never gated on registration.
`getServiceInstance` does return a "not registered" error before the
first successful registration, but `sendMetricsForInterval` never
consults it: every flush, before or after registration, hands the
aggregated snapshot to the metric sender unchanged, and the snapshot
carries no service-instance attribution. -/
theorem c2_amended_flush_not_gated (r : collectorRun) (t : Int)
    (h : registrationState) (hreg : h.registered = false) :
    getServiceInstance h = .error "not registered" ∧
    (sendMetricsForInterval r t).handedToSender =
      r.handedToSender ++ [aggregateMetrics r.state t] ∧
    (sendMetricsForInterval r t).state = r.state := by
  refine ⟨?_, rfl, rfl⟩
  simp [getServiceInstance, hreg]

/-- Witness for C2 (amended) at a fresh (unregistered) handler and an
empty collector. -/
theorem c2_amended_flush_not_gated_witness :
    getServiceInstance (newRegistrationState "svc") = .error "not registered" ∧
    (sendMetricsForInterval ⟨emptyCollectorState, []⟩ 0).handedToSender =
      [] ++ [aggregateMetrics emptyCollectorState 0] ∧
    (sendMetricsForInterval ⟨emptyCollectorState, []⟩ 0).state = emptyCollectorState :=
  c2_amended_flush_not_gated ⟨emptyCollectorState, []⟩ 0 (newRegistrationState "svc") rfl

set_option maxRecDepth 100000 in
/-- C3 (counterexample): each of the four Batcher submit operations —
`addLog`, `addError`, `addMetric`, `addAlert` — called on its queue
already holding 1000 messages (the channel capacity) does not return
with the item dropped and the queue unchanged: the plain channel send
blocks the caller. -/
theorem c3_submit_blocks_on_full_queue :
    (addLog (List.replicate 1000 ⟨0, "INFO", "m", []⟩) (some ⟨1, "INFO", "x", []⟩) =
        .blocked ∧
      addLog (List.replicate 1000 ⟨0, "INFO", "m", []⟩) (some ⟨1, "INFO", "x", []⟩) ≠
        .completed (List.replicate 1000 ⟨0, "INFO", "m", []⟩)) ∧
    (addError (List.replicate 1000 ⟨0, "d", []⟩) (some ⟨1, "e", []⟩) = .blocked ∧
      addError (List.replicate 1000 ⟨0, "d", []⟩) (some ⟨1, "e", []⟩) ≠
        .completed (List.replicate 1000 ⟨0, "d", []⟩)) ∧
    (addMetric (List.replicate 1000 ⟨0, "n", 1, []⟩) (some ⟨1, "n", 2, []⟩) = .blocked ∧
      addMetric (List.replicate 1000 ⟨0, "n", 1, []⟩) (some ⟨1, "n", 2, []⟩) ≠
        .completed (List.replicate 1000 ⟨0, "n", 1, []⟩)) ∧
    (addAlert (List.replicate 1000 ⟨0, "t", []⟩) (some ⟨1, "u", []⟩) = .blocked ∧
      addAlert (List.replicate 1000 ⟨0, "t", []⟩) (some ⟨1, "u", []⟩) ≠
        .completed (List.replicate 1000 ⟨0, "t", []⟩)) := by
  refine ⟨⟨?_, ?_⟩, ⟨?_, ?_⟩, ⟨?_, ?_⟩, ⟨?_, ?_⟩⟩ <;> decide

/-- C3 (amended): all four Batcher submit operations (`addLog`,
`addError`, `addMetric`, `addAlert`) are plain sends on their
capacity-1000 channel: when the queue is full the call blocks until
space frees up — the item is neither dropped nor enqueued and nothing
panics; when the queue has room the item is appended and the call
returns. (The non-blocking drop-on-full policy exists only in
`metricsHandler.capture`, which wraps its send in a `select` with a
`default` case: on a full queue it returns immediately with the queue
unchanged.) -/
theorem c3_amended_submit_blocks_capture_drops
    (ql : List logMessage) (ml : logMessage) (hql : ¬ ql.length < 1000)
    (qe : List errorMessage) (me : errorMessage) (hqe : ¬ qe.length < 1000)
    (qm : List metricMessage) (mm : metricMessage) (hqm : ¬ qm.length < 1000)
    (qa : List alertMessage) (ma : alertMessage) (hqa : ¬ qa.length < 1000)
    (rl : List logMessage) (ml2 : logMessage) (hrl : rl.length < 1000)
    (re : List errorMessage) (me2 : errorMessage) (hre : re.length < 1000)
    (rm : List metricMessage) (mm2 : metricMessage) (hrm : rm.length < 1000)
    (ra : List alertMessage) (ma2 : alertMessage) (hra : ra.length < 1000)
    (hname : String) (cq : List metricMessage) (now : Int) (name : String)
    (v : Int) (attrs : Tags) (hcq : ¬ cq.length < 1000) (hn : ¬ name = "") :
    addLog ql (some ml) = .blocked ∧
    addError qe (some me) = .blocked ∧
    addMetric qm (some mm) = .blocked ∧
    addAlert qa (some ma) = .blocked ∧
    addLog rl (some ml2) = .completed (rl ++ [ml2]) ∧
    addError re (some me2) = .completed (re ++ [me2]) ∧
    addMetric rm (some mm2) = .completed (rm ++ [mm2]) ∧
    addAlert ra (some ma2) = .completed (ra ++ [ma2]) ∧
    capture false hname cq now name v attrs = cq := by
  refine ⟨?_, ?_, ?_, ?_, ?_, ?_, ?_, ?_, ?_⟩
  · simp only [addLog, chanSend, if_neg hql]
  · simp only [addError, chanSend, if_neg hqe]
  · simp only [addMetric, chanSend, if_neg hqm]
  · simp only [addAlert, chanSend, if_neg hqa]
  · simp only [addLog, chanSend, if_pos hrl]
  · simp only [addError, chanSend, if_pos hre]
  · simp only [addMetric, chanSend, if_pos hrm]
  · simp only [addAlert, chanSend, if_pos hra]
  · simp only [capture, Bool.false_or, decide_eq_true_eq, if_neg hn, chanSend,
      if_neg hcq]

set_option maxRecDepth 100000 in
/-- Witness for C3 (amended): full and non-full queues of concrete
messages for all four submit operations, plus a full `capture` queue. -/
theorem c3_amended_submit_blocks_capture_drops_witness :
    addLog (List.replicate 1000 ⟨0, "INFO", "m", []⟩) (some ⟨1, "INFO", "x", []⟩) =
      .blocked ∧
    addError (List.replicate 1000 ⟨0, "d", []⟩) (some ⟨1, "e", []⟩) = .blocked ∧
    addMetric (List.replicate 1000 ⟨0, "n", 1, []⟩) (some ⟨1, "n", 2, []⟩) = .blocked ∧
    addAlert (List.replicate 1000 ⟨0, "t", []⟩) (some ⟨1, "u", []⟩) = .blocked ∧
    addLog [] (some ⟨1, "INFO", "x", []⟩) = .completed ([] ++ [⟨1, "INFO", "x", []⟩]) ∧
    addError [] (some ⟨1, "e", []⟩) = .completed ([] ++ [⟨1, "e", []⟩]) ∧
    addMetric [] (some ⟨1, "n", 2, []⟩) = .completed ([] ++ [⟨1, "n", 2, []⟩]) ∧
    addAlert [] (some ⟨1, "u", []⟩) = .completed ([] ++ [⟨1, "u", []⟩]) ∧
    capture false "svc" (List.replicate 1000 ⟨0, "n", 1, []⟩) 1 "n" 2 [] =
      List.replicate 1000 ⟨0, "n", 1, []⟩ :=
  c3_amended_submit_blocks_capture_drops
    (List.replicate 1000 ⟨0, "INFO", "m", []⟩) ⟨1, "INFO", "x", []⟩ (by decide)
    (List.replicate 1000 ⟨0, "d", []⟩) ⟨1, "e", []⟩ (by decide)
    (List.replicate 1000 ⟨0, "n", 1, []⟩) ⟨1, "n", 2, []⟩ (by decide)
    (List.replicate 1000 ⟨0, "t", []⟩) ⟨1, "u", []⟩ (by decide)
    [] ⟨1, "INFO", "x", []⟩ (by decide)
    [] ⟨1, "e", []⟩ (by decide)
    [] ⟨1, "n", 2, []⟩ (by decide)
    [] ⟨1, "u", []⟩ (by decide)
    "svc" (List.replicate 1000 ⟨0, "n", 1, []⟩) 1 "n" 2 [] (by decide) (by decide)

/-- C9 (counterexample): after one tick on which all nine registration
attempts fail, the registration goroutine has returned; on the next tick
nothing is attempted and the process stays unregistered — even though
that tick's oracle shows a registration attempt would have succeeded had
the loop still been running. -/
theorem c9_persistent_failure_terminates_loop :
    runRegistrationTicks (.running false) [List.replicate 9 false, [true]] =
      .returned false ∧
    runRegistrationStep (.running false) [true] = .running true := by
  constructor
  · decide
  · decide

/-- C9 (amended): on a tick where all nine bounded retry attempts fail,
the registration loop terminates: `runRegistration` returns, and no
registration is attempted on any later tick, so a persistent failure on
one tick permanently disables registration (it does not merely delay it);
the process itself does not crash. -/
theorem c9_amended_loop_returns_after_failed_tick (t : List Bool)
    (h : registerAttemptsSucceed t = false) (ticks : List (List Bool)) :
    runRegistrationTicks (.running false) (t :: ticks) = .returned false := by
  have h1 : runRegistrationStep (.running false) t = .returned false := by
    simp [runRegistrationStep, h]
  simp only [runRegistrationTicks, List.foldl_cons, h1]
  induction ticks with
  | nil => rfl
  | cons t2 rest ih =>
      simpa [List.foldl_cons, runRegistrationStep] using ih

/-- Witness for C9 (amended): a tick of nine failures followed by a tick
that would have succeeded. -/
theorem c9_amended_loop_returns_after_failed_tick_witness :
    runRegistrationTicks (.running false) (List.replicate 9 false :: [[true]]) =
      .returned false :=
  c9_amended_loop_returns_after_failed_tick (List.replicate 9 false) (by decide) [[true]]

/-- One `runLogBatcher` step conserves the items: the batches already
sent, the local slice and the channel contents together always hold
exactly the items originally enqueued, in order. -/
theorem logBatcherStep_conservation (s : logBatcherState) (e : batcherEvent) :
    (logBatcherStep s e).sent.flatten ++
        ((logBatcherStep s e).buf ++ (logBatcherStep s e).queue) =
      s.sent.flatten ++ (s.buf ++ s.queue) := by
  by_cases hex : s.loopExited
  · simp [logBatcherStep, hex]
  · cases e with
    | stopSignal =>
        by_cases hb : s.buf.length > 0
        · simp [logBatcherStep, hex, hb, List.flatten_append]
        · have hbuf : s.buf = [] := by
            rw [← List.length_eq_zero]
            omega
          simp [logBatcherStep, hex, hb, hbuf]
    | recv =>
        cases hq : s.queue with
        | nil => simp [logBatcherStep, hex, hq]
        | cons m rest =>
            by_cases hlen : maxBatchSize ≤ s.buf.length + 1 <;>
              simp [logBatcherStep, hex, hq, hlen, List.flatten_append]
    | tick =>
        by_cases hb : s.buf.length > 0 <;>
          simp [logBatcherStep, hex, hb, List.flatten_append]

/-- Once the `runLogBatcher` goroutine has returned, its local slice has
been flushed (it is empty), and it stays that way. -/
theorem logBatcherStep_exited_buf (s : logBatcherState) (e : batcherEvent)
    (hinv : s.loopExited = true → s.buf = []) :
    (logBatcherStep s e).loopExited = true → (logBatcherStep s e).buf = [] := by
  by_cases hex : s.loopExited
  · simpa [logBatcherStep, hex] using hinv
  · cases e with
    | stopSignal =>
        by_cases hb : s.buf.length > 0
        · simp [logBatcherStep, hex, hb]
        · have hbuf : s.buf = [] := by
            rw [← List.length_eq_zero]
            omega
          simp [logBatcherStep, hex, hb, hbuf]
    | recv =>
        cases hq : s.queue with
        | nil => simp [logBatcherStep, hex, hq, hinv]
        | cons m rest =>
            by_cases hlen : maxBatchSize ≤ s.buf.length + 1 <;>
              simp [logBatcherStep, hex, hq, hlen]
    | tick =>
        by_cases hb : s.buf.length > 0 <;> simp [logBatcherStep, hex, hb]

/-- Model of `runLogBatcher` over any schedule conserves the items and, once the
loop has exited, leaves an empty local slice. -/
theorem runLogBatcher_conservation (es : List batcherEvent) (s : logBatcherState) :
    (runLogBatcher s es).sent.flatten ++
        ((runLogBatcher s es).buf ++ (runLogBatcher s es).queue) =
      s.sent.flatten ++ (s.buf ++ s.queue) ∧
    ((s.loopExited = true → s.buf = []) →
      (runLogBatcher s es).loopExited = true → (runLogBatcher s es).buf = []) := by
  induction es generalizing s with
  | nil => exact ⟨rfl, fun h => h⟩
  | cons e rest ih =>
      refine ⟨?_, ?_⟩
      · calc (runLogBatcher (logBatcherStep s e) rest).sent.flatten ++
              ((runLogBatcher (logBatcherStep s e) rest).buf ++
                (runLogBatcher (logBatcherStep s e) rest).queue)
            = (logBatcherStep s e).sent.flatten ++
                ((logBatcherStep s e).buf ++ (logBatcherStep s e).queue) :=
              (ih (logBatcherStep s e)).1
          _ = s.sent.flatten ++ (s.buf ++ s.queue) := logBatcherStep_conservation s e
      · intro hinv
        exact (ih (logBatcherStep s e)).2 (logBatcherStep_exited_buf s e hinv)

/-- C4 (counterexample): one message is accepted into the queue, then the
stop signal fires before the loop dequeues it (a legal `select` outcome,
since `stop()` has closed `batchStop`). The loop performs its final flush
(of the empty local slice) and returns — so `stop()` returns — yet no
batch was handed to the HTTP delivery step and the item still sits,
unflushed, in the channel. -/
theorem c4_stop_loses_queued_item :
    (runLogBatcher ⟨[⟨0, "INFO", "m", []⟩], [], [], false⟩ [.stopSignal]).sent = [] ∧
    (runLogBatcher ⟨[⟨0, "INFO", "m", []⟩], [], [], false⟩ [.stopSignal]).loopExited = true ∧
    (runLogBatcher ⟨[⟨0, "INFO", "m", []⟩], [], [], false⟩ [.stopSignal]).queue =
      [⟨0, "INFO", "m", []⟩] := by
  refine ⟨?_, ?_, ?_⟩ <;> decide

/-- C4 (amended): after `stop()` returns (the loop has exited), the items
accepted into the queue before `stop()` split exactly, in order, into the
batches handed to the HTTP delivery step followed by the items still
sitting in the channel: every item the background loop dequeued —
including the final flush of its in-memory slice — is in some batch, but
items the loop never dequeued remain in the channel, unflushed. -/
theorem c4_amended_stop_flushes_only_dequeued (q0 : List logMessage)
    (es : List batcherEvent)
    (h : (runLogBatcher ⟨q0, [], [], false⟩ es).loopExited = true) :
    (runLogBatcher ⟨q0, [], [], false⟩ es).sent.flatten ++
        (runLogBatcher ⟨q0, [], [], false⟩ es).queue = q0 := by
  have hc := runLogBatcher_conservation es ⟨q0, [], [], false⟩
  have hb : (runLogBatcher ⟨q0, [], [], false⟩ es).buf = [] :=
    hc.2 (fun hfalse => by simp at hfalse) h
  have hmain := hc.1
  rw [hb] at hmain
  simpa using hmain

/-- Witness for C4 (amended): a two-message queue where the loop dequeues
and flushes the first message, then stops; the flushed batch plus the
leftover queue recover the original queue. -/
theorem c4_amended_stop_flushes_only_dequeued_witness :
    (runLogBatcher ⟨[⟨0, "INFO", "m1", []⟩, ⟨0, "INFO", "m2", []⟩], [], [], false⟩
        [.recv, .tick, .stopSignal]).sent.flatten ++
      (runLogBatcher ⟨[⟨0, "INFO", "m1", []⟩, ⟨0, "INFO", "m2", []⟩], [], [], false⟩
        [.recv, .tick, .stopSignal]).queue =
      [⟨0, "INFO", "m1", []⟩, ⟨0, "INFO", "m2", []⟩] :=
  c4_amended_stop_flushes_only_dequeued
    [⟨0, "INFO", "m1", []⟩, ⟨0, "INFO", "m2", []⟩]
    [.recv, .tick, .stopSignal] (by decide)

/-- One `runMetricSender` step conserves the non-empty snapshots: the
delivered snapshots followed by the non-empty snapshots still queued are
exactly the non-empty snapshots enqueued, in order. -/
theorem metricSenderStep_conservation (s : senderState) (e : senderEvent) :
    (metricSenderStep s e).delivered ++
        ((metricSenderStep s e).queue.filter hasMetricsToSend) =
      s.delivered ++ (s.queue.filter hasMetricsToSend) := by
  by_cases hex : s.loopExited
  · simp [metricSenderStep, hex]
  · cases e with
    | stopSignal => simp [metricSenderStep, hex]
    | recv =>
        cases hq : s.queue with
        | nil => simp [metricSenderStep, hex, hq]
        | cons a rest =>
            by_cases hsend : hasMetricsToSend a <;>
              simp [metricSenderStep, hex, hq, hsend, List.filter_cons]

/-- C8 (counterexample): a non-empty snapshot sits in the sender's queue
when the stop signal is observed; the loop returns at once (there is no
drain), so at the moment `stop()` returns the snapshot is still queued
and was never delivered. -/
theorem c8_stop_does_not_drain :
    (runMetricSender ⟨[⟨[⟨1, "a", 1, []⟩], [], []⟩], [], false⟩ [.stopSignal]).delivered =
      [] ∧
    (runMetricSender ⟨[⟨[⟨1, "a", 1, []⟩], [], []⟩], [], false⟩ [.stopSignal]).loopExited =
      true ∧
    (runMetricSender ⟨[⟨[⟨1, "a", 1, []⟩], [], []⟩], [], false⟩ [.stopSignal]).queue =
      [⟨[⟨1, "a", 1, []⟩], [], []⟩] := by
  refine ⟨?_, ?_, ?_⟩ <;> decide

/-- C8 (amended): `stop()` waits for the sender loop to exit but does not
drain the queue. Over every schedule, the delivered snapshots followed by
the non-empty snapshots still queued are exactly the non-empty snapshots
that were enqueued, in order: snapshots dequeued before the stop signal
are delivered, snapshots still queued when the loop observes the stop
signal remain undelivered at the moment `stop()` returns. -/
theorem c8_amended_delivery_conservation (q0 : List aggregatedMetrics)
    (es : List senderEvent) :
    (runMetricSender ⟨q0, [], false⟩ es).delivered ++
        ((runMetricSender ⟨q0, [], false⟩ es).queue.filter hasMetricsToSend) =
      q0.filter hasMetricsToSend := by
  have hgen : ∀ (evs : List senderEvent) (s : senderState),
      (runMetricSender s evs).delivered ++
          ((runMetricSender s evs).queue.filter hasMetricsToSend) =
        s.delivered ++ (s.queue.filter hasMetricsToSend) := by
    intro evs
    induction evs with
    | nil => intro s; rfl
    | cons e rest ih =>
        intro s
        calc (runMetricSender (metricSenderStep s e) rest).delivered ++
              ((runMetricSender (metricSenderStep s e) rest).queue.filter hasMetricsToSend)
            = (metricSenderStep s e).delivered ++
                ((metricSenderStep s e).queue.filter hasMetricsToSend) :=
              ih (metricSenderStep s e)
          _ = s.delivered ++ (s.queue.filter hasMetricsToSend) :=
              metricSenderStep_conservation s e
  simpa using hgen es ⟨q0, [], false⟩

end Vigilant
